import Mathlib

/-!
Verification development for the Columbia transit-board commute-plan
normalizer (`parseTripShotCommutePlanForOrigin` and its helpers, from
`server.js`).  The JavaScript is shallowly embedded: JSON documents become
the inductive `JVal`; the duck-typed field accesses, truthiness-based `||`
fallbacks, `toLowerCase`/`toString` coercions and `for ... of` iteration are
modelled by small executable functions reproducing the JavaScript semantics
(including the `TypeError`s thrown on `null` property access, on calling
`toLowerCase` on a non-string, and on iterating a non-iterable value, which
are captured in the `Except String` monad).  Timestamp strings are modelled
as decimal millisecond offsets: `parseDate` is the order-preserving stand-in
for `new Date(s).getTime()`, with `none` playing the role of `NaN`
(an invalid date), whose comparisons are all false, as in JavaScript.
-/

namespace TransitBoard

/-- A JSON value (the argument shape of the normalizer).  Numbers are
modelled as integers; object fields as an association list.  A missing
property and an explicit `null` are conflated into `JVal.null` (both are
falsy and both make property access throw, which is all the code under
study distinguishes). -/
inductive JVal where
  | null : JVal
  | bool : Bool → JVal
  | num : Int → JVal
  | str : String → JVal
  | arr : List JVal → JVal
  | obj : List (String × JVal) → JVal

/-- JavaScript truthiness of a value. -/
def truthy : JVal → Bool
  | .null => false
  | .bool b => b
  | .num n => n != 0
  | .str s => s != ""
  | .arr _ => true
  | .obj _ => true

/-- `a || b` on JavaScript values. -/
def jsOr (a b : JVal) : JVal := if truthy a then a else b

/-- ASCII lower-casing of one character (the model of JavaScript
`toLowerCase`; the identifiers and route names under study only exercise
the ASCII range). -/
def lowerChar (c : Char) : Char :=
  if 65 ≤ c.toNat ∧ c.toNat ≤ 90 then Char.ofNat (c.toNat + 32) else c

/-- ASCII lower-casing of a string. -/
def lowerStr (s : String) : String := String.mk (s.data.map lowerChar)

/-- ASCII upper-casing of one character. -/
def upperChar (c : Char) : Char :=
  if 97 ≤ c.toNat ∧ c.toNat ≤ 122 then Char.ofNat (c.toNat - 32) else c

/-- `s[0].toUpperCase() + s.slice(1)`: first letter capitalized. -/
def capitalizeStr (s : String) : String :=
  match s.data with
  | [] => ""
  | c :: cs => String.mk (upperChar c :: cs)

/-- `v.toLowerCase()`: succeeds on strings, throws a `TypeError` on
everything else (numbers, booleans, arrays, objects have no such method;
null property access also throws). -/
def jsToLowerCase (v : JVal) : Except String String :=
  match v with
  | .str s => .ok (lowerStr s)
  | _ => .error "TypeError: toLowerCase is not a function"

/-- Does `pat` occur at the start of `l`? -/
def startsWithChars : List Char → List Char → Bool
  | _, [] => true
  | [], _ :: _ => false
  | c :: cs, p :: ps => c == p && startsWithChars cs ps

/-- Does `pat` occur anywhere in `l`? -/
def containsChars : List Char → List Char → Bool
  | [], pat => pat.isEmpty
  | c :: cs, pat => startsWithChars (c :: cs) pat || containsChars cs pat

/-- `s.includes(pat)`. -/
def jsIncludes (s pat : String) : Bool := containsChars s.data pat.data

/-- The numeric value of a decimal digit character. -/
def digitVal (c : Char) : Option Nat :=
  if 48 ≤ c.toNat ∧ c.toNat ≤ 57 then some (c.toNat - 48) else none

/-- Accumulating decimal parse of a character list (none when a
non-digit appears or no digit was seen). -/
def digitsVal : List Char → Option Nat → Option Nat
  | [], acc => acc
  | c :: cs, acc =>
    match digitVal c, acc with
    | some d, some a => digitsVal cs (some (a * 10 + d))
    | some d, none => digitsVal cs (some d)
    | none, _ => none

/-- Parse an optionally negated decimal-integer string, `none` otherwise:
the model of date-string parsing over the decimal millisecond encodings
this development uses for timestamps. -/
def strToMs (s : String) : Option Int :=
  match s.data with
  | '-' :: cs => (digitsVal cs none).map (fun n => -(n : Int))
  | cs => (digitsVal cs none).map (fun n => (n : Int))

/-- Property access `v.f`: throws a `TypeError` on `null` (and `undefined`,
conflated here), yields the field on objects (missing fields give
`undefined`, conflated with `null`), and `undefined` on primitives. -/
def jsGetField (v : JVal) (f : String) : Except String JVal :=
  match v with
  | .null => .error "TypeError: cannot read properties of null"
  | .obj fs => .ok ((fs.lookup f).getD .null)
  | _ => .ok .null

/-- `Object.keys(v)` for a truthy `v`: field names of an object, index
strings of a string, empty for other primitives and arrays without
elements... arrays are modelled as keyless since the code only applies this
to stop-status wrappers. -/
def jsKeys : JVal → List String
  | .obj fs => fs.map Prod.fst
  | .str s => (List.range s.length).map toString
  | _ => []

/-- Indexing `v[k]` for a truthy `v` with a key known to be present
(the code only indexes with a key returned by `Object.keys`). -/
def jsIndex (v : JVal) (k : String) : JVal :=
  match v with
  | .obj fs => (fs.lookup k).getD .null
  | .str s =>
    match digitsVal k.data none with
    | some i =>
      match s.data.get? i with
      | some c => .str (String.mk [c])
      | none => .null
    | none => .null
  | _ => .null

/-- `typeof v` (note `typeof null = "object"`, the slip the unwrapping
step inherits). -/
def jsTypeof : JVal → String
  | .null => "object"
  | .bool _ => "boolean"
  | .num _ => "number"
  | .str _ => "string"
  | .arr _ => "object"
  | .obj _ => "object"

/-- One array element inside `Array.prototype.toString`: null renders
empty; a nested array is approximated by the empty string (the code under
study never feeds nested arrays to a string coercion, and the deep join
would force non-structural recursion). -/
def jsToStringElem : JVal → String
  | .null => ""
  | .bool b => if b then "true" else "false"
  | .num n => toString n
  | .str s => s
  | .arr _ => ""
  | .obj _ => "[object Object]"

/-- `Array.prototype.toString`: comma-joined elements. -/
def jsToStringElems : List JVal → String
  | [] => ""
  | [v] => jsToStringElem v
  | v :: w :: vs => jsToStringElem v ++ "," ++ jsToStringElems (w :: vs)

/-- `String(v)` / `v.toString()` (total on non-null values; the code only
applies it to results of `|| ""` chains, which are never null). -/
def jsToString : JVal → String
  | .null => "null"
  | .bool b => if b then "true" else "false"
  | .num n => toString n
  | .str s => s
  | .arr xs => jsToStringElems xs
  | .obj _ => "[object Object]"

/-- `for (const x of v)` over a truthy value: arrays yield their elements,
strings their characters, everything else throws a `TypeError`. -/
def jsIterate (v : JVal) : Except String (List JVal) :=
  match v with
  | .arr xs => .ok xs
  | .str s => .ok (s.data.map (fun c => .str (String.mk [c])))
  | _ => .error "TypeError: value is not iterable"

/-- `new Date(v).getTime()` in the model: a numeric string or a number is
the millisecond value itself (the order-preserving stand-in for ISO-8601
parsing); `new Date(true)` is 1 ms; anything else is an invalid date,
i.e. `NaN`, modelled as `none`. -/
def parseDate : JVal → Option Int
  | .num n => some n
  | .str s => strToMs s
  | .bool true => some 1
  | _ => none

/-- `x < y` on two `getTime()` results, with `NaN` comparisons false. -/
def jsLtMs (a b : Option Int) : Bool :=
  match a, b with
  | some x, some y => x < y
  | _, _ => false

/-- `x >= n` on a `getTime()` result against a number, `NaN` giving false. -/
def jsGeMs (a : Option Int) (n : Int) : Bool :=
  match a with
  | some x => n ≤ x
  | none => false

/-- `(live - scheduled) / 60000 > 1` with `NaN` arithmetic giving false:
the delay test of `considerRide`. -/
def delayGtOneMin (live sched : Option Int) : Bool :=
  match live, sched with
  | some l, some s => 60000 < l - s
  | _, _ => false

/-- `formatTime(dateISOString)` from `server.js`: 12-hour local time.
`tz` is the server's local UTC offset in milliseconds (the `getHours` /
`getMinutes` of the `Date` API).  An invalid date renders as
`"NaN:NaN am"`, as in JavaScript. -/
def formatTime (tz : Int) (v : JVal) : String :=
  match parseDate v with
  | none => "NaN:NaN am"
  | some ms =>
    let t := ms + tz
    let h24 := (Int.fdiv t 3600000).emod 24
    let m := (Int.fdiv t 60000).emod 60
    let suffix := if 12 ≤ h24 then "pm" else "am"
    let h := ((h24 + 11).emod 12) + 1
    let mm := (if m < 10 then "0" else "") ++ toString m
    toString h ++ ":" ++ mm ++ " " ++ suffix

/-- `minutesFromNow(dateISOString)` from `server.js`:
`Math.max(0, Math.round((target - Date.now()) / 60000))`; `none` models the
`NaN` produced by an unparseable timestamp.  `Math.round` rounds half
toward positive infinity, i.e. `floor(x + 1/2)`. -/
def minutesFromNow (now : Int) (v : JVal) : Option Int :=
  match parseDate v with
  | none => none
  | some target => some (max 0 (Int.fdiv (2 * (target - now) + 60000) 120000))

/-- The fixed 96th St destination stop identifier (`NINETY_SIX_STOP_ID`). -/
def NINETY_SIX_STOP_ID : String := "A5C97705-8217-4D82-A778-01DAA12322A6"

/-- The ambient clock of a run: `now` models `Date.now()` in epoch
milliseconds; `tz` models the server's local UTC offset in milliseconds
(used only by `formatTime`, i.e. `Date.prototype.getHours`). -/
structure Env where
  now : Int
  tz : Int

/-- The route-directory record `\x7bid, name, shortName, colorLabel\x7d`
built by `parseTripShotCommutePlanForOrigin` (name and shortName keep
whatever JSON value the payload carried; `colorLabel` is always one of
`""`, `"Green"`, `"Red"`, `"Blue"` by construction). -/
structure RouteInfo where
  id : JVal
  name : JVal
  shortName : JVal
  colorLabel : String

/-- `/pat/i.test(v)`: JavaScript regex test coerces the argument to a
string, so this is a case-insensitive substring test on `String(v)`. -/
def regexTestCI (pat : String) (v : JVal) : Bool :=
  jsIncludes (lowerStr (jsToString v)) pat

/-- Color-label inference for one route: check name then short name for
green, then red, then blue; first match wins, no match leaves `""`. -/
def inferColorLabel (name shortName : JVal) : String :=
  if regexTestCI "green" name || regexTestCI "green" shortName then "Green"
  else if regexTestCI "red" name || regexTestCI "red" shortName then "Red"
  else if regexTestCI "blue" name || regexTestCI "blue" shortName then "Blue"
  else ""

/-- The `routeId → info` directory-building loop.  Object property keys
are string conversions of the id; writes overwrite, which the accumulator
models by prepending (lookup finds the most recent write first).  A route
descriptor that is `null` makes the `r.routeId` access throw; a falsy
`routeId` skips the entry. -/
def buildRouteInfoById : List JVal → List (String × RouteInfo) →
    Except String (List (String × RouteInfo))
  | [], acc => .ok acc
  | r :: rs, acc =>
    match jsGetField r "routeId" with
    | .error e => .error e
    | .ok id =>
      if truthy id = false then buildRouteInfoById rs acc
      else
        match jsGetField r "name" with
        | .error e => .error e
        | .ok rawName =>
          match jsGetField r "shortName" with
          | .error e => .error e
          | .ok rawShort =>
            let name := jsOr rawName (jsOr rawShort (.str "Shuttle"))
            let shortName := jsOr rawShort name
            let info : RouteInfo :=
              ⟨id, name, shortName, inferColorLabel name shortName⟩
            buildRouteInfoById rs ((jsToString id, info) :: acc)

/-- `isWalkingRide`: `(ride.mode || ride.type || "").toString()
.toLowerCase().includes("walk")`.  Throws if `ride` is null. -/
def isWalkingRide (ride : JVal) : Except String Bool :=
  match jsGetField ride "mode" with
  | .error e => .error e
  | .ok m =>
    match jsGetField ride "type" with
    | .error e => .error e
    | .ok t =>
      .ok (jsIncludes (lowerStr (jsToString (jsOr m (jsOr t (.str ""))))) "walk")

/-- Unwrapping of one stop-status wrapper: when the wrapper has exactly one
key whose value has `typeof === "object"` (which includes `null`!), the
inner value replaces the wrapper. -/
def unwrapStatus (w : JVal) : JVal :=
  let keys := jsKeys w
  if keys.length == 1 && (jsTypeof (jsIndex w (keys.headD "")) == "object")
  then jsIndex w (keys.headD "")
  else w

/-- `(inner.stopId || "").toLowerCase()`: the stop identifier of an
unwrapped record, lower-cased.  Throws when `inner` is null (property
access) or when `stopId` is a truthy non-string (no `toLowerCase`). -/
def sidOf (inner : JVal) : Except String String :=
  match jsGetField inner "stopId" with
  | .error e => .error e
  | .ok sv => jsToLowerCase (jsOr sv (.str ""))

/-- The stop-status scanning loop of `considerRide` (lines 238-248):
falsy wrappers are skipped, each remaining wrapper is unwrapped, and the
origin / 96th St accumulators are overwritten on every identifier match
(so the last match in sequence order wins). -/
def scanStatuses (oid nid : String) :
    List JVal → Option JVal → Option JVal →
    Except String (Option JVal × Option JVal)
  | [], o, n => .ok (o, n)
  | w :: ws, o, n =>
    if truthy w = false then scanStatuses oid nid ws o n
    else
      let inner := unwrapStatus w
      match sidOf inner with
      | .error e => .error e
      | .ok sid =>
        scanStatuses oid nid ws
          (if sid == oid then some inner else o)
          (if sid == nid then some inner else n)

/-- `scheduledDepartureTime || scheduledArrivalTime || scheduledAt` on the
origin record. -/
def scheduledTimeOf (node : JVal) : Except String JVal :=
  match jsGetField node "scheduledDepartureTime" with
  | .error e => .error e
  | .ok a =>
    match jsGetField node "scheduledArrivalTime" with
    | .error e => .error e
    | .ok b =>
      match jsGetField node "scheduledAt" with
      | .error e => .error e
      | .ok c => .ok (jsOr a (jsOr b c))

/-- `expectedArrivalTime || expectedDepartureTime || scheduledTime` on the
origin record. -/
def liveTimeOf (node scheduledTime : JVal) : Except String JVal :=
  match jsGetField node "expectedArrivalTime" with
  | .error e => .error e
  | .ok a =>
    match jsGetField node "expectedDepartureTime" with
    | .error e => .error e
    | .ok b => .ok (jsOr a (jsOr b scheduledTime))

/-- `expectedArrivalTime || scheduledArrivalTime || scheduledAt` on the
96th St record. -/
def ninetySixTimeOf (node : JVal) : Except String JVal :=
  match jsGetField node "expectedArrivalTime" with
  | .error e => .error e
  | .ok a =>
    match jsGetField node "scheduledArrivalTime" with
    | .error e => .error e
    | .ok b =>
      match jsGetField node "scheduledAt" with
      | .error e => .error e
      | .ok c => .ok (jsOr a (jsOr b c))

/-- The `reaches96` computation (lines 264-276): false when no 96th St
record was found or its time chain is falsy; otherwise the strict
millisecond comparison `originMs < ninetySixMs` (false on `NaN`). -/
def reaches96Of (ninetySixNode : Option JVal) (liveTime : JVal) :
    Except String Bool :=
  match ninetySixNode with
  | none => .ok false
  | some d =>
    match ninetySixTimeOf d with
    | .error e => .error e
    | .ok t => .ok (truthy t && jsLtMs (parseDate liveTime) (parseDate t))

/-- One output arrival entry. -/
structure Entry where
  routeName : JVal
  color : String
  time : String
  rawISO : JVal
  inMinutes : Option Int
  direct : Bool
  delayed : Bool

/-- `considerRide(ride, routeInfo)` from `src/unnamed/part_000` (v15,
lines 224-302): returns the bucket key and the entry, `none` when the ride
is skipped, or the `TypeError` the JavaScript would throw.  The
`!routeInfo` guard is vacuous here because `RouteInfo` is always a record
in this embedding, exactly as in the source where every branch of the
lookup produces an object. -/
def considerRide (env : Env) (ride : JVal) (info : RouteInfo)
    (oid nid : String) : Except String (Option (String × Entry)) :=
  if truthy ride = false then .ok none
  else
    match jsToLowerCase (jsOr info.name (.str "")) with
    | .error e => .error e
    | .ok rName =>
      match jsToLowerCase (jsOr info.shortName (.str "")) with
      | .error e => .error e
      | .ok rShort =>
        if jsIncludes rName "manhattanville" ||
            jsIncludes rShort "manhattanville" then .ok none
        else
          match jsGetField ride "stopStatus" with
          | .error e => .error e
          | .ok ss =>
            match jsIterate (jsOr ss (.arr [])) with
            | .error e => .error e
            | .ok statuses =>
              match scanStatuses oid nid statuses none none with
              | .error e => .error e
              | .ok (none, _) => .ok none
              | .ok (some node, ninetySixNode) =>
                match scheduledTimeOf node with
                | .error e => .error e
                | .ok scheduledTime =>
                  match liveTimeOf node scheduledTime with
                  | .error e => .error e
                  | .ok liveTime =>
                    if truthy liveTime = false then .ok none
                    else
                      match reaches96Of ninetySixNode liveTime with
                      | .error e => .error e
                      | .ok reaches96 =>
                        let colorKey :=
                          if info.colorLabel ≠ "" then lowerStr info.colorLabel
                          else "blue"
                        let entry : Entry :=
                          { routeName := info.name
                            color :=
                              if info.colorLabel ≠ "" then info.colorLabel
                              else colorKey
                            time := formatTime env.tz liveTime
                            rawISO := liveTime
                            inMinutes := minutesFromNow env.now liveTime
                            direct := reaches96
                            delayed :=
                              truthy scheduledTime &&
                                delayGtOneMin (parseDate liveTime)
                                  (parseDate scheduledTime) }
                        .ok (some (colorKey, entry))

/-- The loop body of the rides loop (lines 304-317): walking rides are
skipped, the route is resolved by `routeId` then `routeServiceId` with a
synthetic `"Shuttle"` fallback, and `considerRide` runs. -/
def rideEntryOf (env : Env) (dir : List (String × RouteInfo)) (oid nid : String)
    (ride : JVal) : Except String (Option (String × Entry)) :=
  match isWalkingRide ride with
  | .error e => .error e
  | .ok true => .ok none
  | .ok false =>
    match jsGetField ride "routeId" with
    | .error e => .error e
    | .ok id1 =>
      match jsGetField ride "routeServiceId" with
      | .error e => .error e
      | .ok id2 =>
        let info : RouteInfo :=
          match dir.lookup (jsToString id1) with
          | some i => i
          | none =>
            match dir.lookup (jsToString id2) with
            | some i => i
            | none => ⟨jsOr id1 id2, .str "Shuttle", .str "Shuttle", ""⟩
        considerRide env ride info oid nid

/-- The rides loop: accumulates the three buckets in push order.  An entry
whose bucket key is not one of the three would be a `TypeError`
(`buckets[colorKey]` undefined); by construction of `considerRide` this
branch is unreachable. -/
def processRides (env : Env) (dir : List (String × RouteInfo))
    (oid nid : String) :
    List JVal → List Entry × List Entry × List Entry →
    Except String (List Entry × List Entry × List Entry)
  | [], b => .ok b
  | ride :: rest, (g, r, b) =>
    match rideEntryOf env dir oid nid ride with
    | .error e => .error e
    | .ok none => processRides env dir oid nid rest (g, r, b)
    | .ok (some (k, entry)) =>
      if k == "green" then processRides env dir oid nid rest (g ++ [entry], r, b)
      else if k == "red" then
        processRides env dir oid nid rest (g, r ++ [entry], b)
      else if k == "blue" then
        processRides env dir oid nid rest (g, r, b ++ [entry])
      else .error "TypeError: cannot read properties of undefined"

/-- The sorting key of the final per-bucket sort: the comparator is
`new Date(a.rawISO) - new Date(b.rawISO)`.  A `rawISO` that fails to parse
yields a `NaN` comparator whose sort behavior JavaScript leaves
implementation-defined; the model pins it to the epoch (0). -/
def sortKey (e : Entry) : Int := (parseDate e.rawISO).getD 0

/-- The comparator relation of the final sort. -/
def entryLe (a b : Entry) : Prop := sortKey a ≤ sortKey b

instance : DecidableRel entryLe := fun a b => Int.decLe _ _

instance : IsTotal Entry entryLe := ⟨fun _ _ => Int.le_total _ _⟩

instance : IsTrans Entry entryLe := ⟨fun _ _ _ => Int.le_trans⟩

/-- `arr.sort(byDate); arr.slice(0, 3)`: the stable ascending sort with
the three-entry cap. -/
def sortAndTake3 (l : List Entry) : List Entry :=
  (l.insertionSort entryLe).take 3

/-- The client-facing output of one origin's normalization. -/
structure ParsedOutput where
  stopName : String
  green : List Entry
  red : List Entry
  blue : List Entry

/-- `parseTripShotCommutePlanForOrigin(json, originStopId, originLabel)`
from `src/unnamed/part_000` (v15, lines 187-327). -/
def parseTripShotCommutePlanForOrigin (env : Env) (json : JVal)
    (originStopId originLabel : String) : Except String ParsedOutput :=
  match jsGetField json "routes" with
  | .error e => .error e
  | .ok routesV =>
    match jsIterate (jsOr routesV (.arr [])) with
    | .error e => .error e
    | .ok routes =>
      match buildRouteInfoById routes [] with
      | .error e => .error e
      | .ok dir =>
        match jsGetField json "rides" with
        | .error e => .error e
        | .ok ridesV =>
          match jsIterate (jsOr ridesV (.arr [])) with
          | .error e => .error e
          | .ok rides =>
            let oid := lowerStr originStopId
            let nid := lowerStr NINETY_SIX_STOP_ID
            match processRides env dir oid nid rides ([], [], []) with
            | .error e => .error e
            | .ok (g, r, b) =>
              .ok { stopName := originLabel
                    green := sortAndTake3 g
                    red := sortAndTake3 r
                    blue := sortAndTake3 b }

/-- `filterTripsAfterNYCNow(trips)` from `src/unnamed/part_000` (lines
66-72): keep entries with a truthy `rawISO` whose date is `>= now`, where
`now` is the snapshot produced by `getNYCTime()` (the current instant
re-expressed in the America/New_York civil timezone), supplied here by the
caller since the model has no ambient clock. -/
def filterTripsAfterNYCNow (now : Int) (trips : List Entry) : List Entry :=
  trips.filter (fun t => truthy t.rawISO && jsGeMs (parseDate t.rawISO) now)

/-- The display-color expression of the older v14 parser
(`src/server.js` line 276):
`routeInfo.colorLabel || colorKey[0].toUpperCase() + colorKey.slice(1)`
(the bucket key with its first letter capitalized as the fallback). -/
def displayColorV14 (colorLabel colorKey : String) : String :=
  if colorLabel ≠ "" then colorLabel
  else capitalizeStr colorKey

/-- Strict ascending order by raw timestamp, the reading of
"sorted strictly ascending by raw timestamp". -/
def strictlyAscendingByRawTimestamp (l : List Entry) : Prop :=
  List.Pairwise (fun a b => sortKey a < sortKey b) l

/-- The per-wrapper match function underlying `lastMatchingStatus`. -/
def statusMatch (id : String) (w : JVal) : Option JVal :=
  if truthy w then
    match sidOf (unwrapStatus w) with
    | .ok s => if s == id then some (unwrapStatus w) else none
    | .error _ => none
  else none

/-- The stop-status record the claims' "last matching record" reading
selects: the last truthy wrapper in sequence order whose unwrapped record
has the given (lower-cased) stop identifier. -/
def lastMatchingStatus (l : List JVal) (id : String) : Option JVal :=
  l.reverse.findSome? (statusMatch id)

/-- The contribution of a single ride to the buckets: at most one keyed
entry (`none` when the ride is skipped or its processing would throw). -/
def contribOf (env : Env) (dir : List (String × RouteInfo)) (oid nid : String)
    (ride : JVal) : Option (String × Entry) :=
  (rideEntryOf env dir oid nid ride).toOption.join

/-- The entries a list of rides contributes to one bucket, in ride order. -/
def bucketContrib (env : Env) (dir : List (String × RouteInfo))
    (oid nid k : String) (rides : List JVal) : List Entry :=
  rides.filterMap (fun ride =>
    match contribOf env dir oid nid ride with
    | some (kk, e) => if kk == k then some e else none
    | none => none)

/-- Forget the only explicitly clock-relative field of an entry. -/
def eraseInMinutes (e : Entry) : Entry :=
  { e with inMinutes := none }

/-- Forget the clock-relative fields of a whole output. -/
def eraseOutMinutes (r : ParsedOutput) : ParsedOutput :=
  { r with green := r.green.map eraseInMinutes
           red := r.red.map eraseInMinutes
           blue := r.blue.map eraseInMinutes }

/-- Forget the clock-relative fields of a bucket triple. -/
def eraseTriple (t : List Entry × List Entry × List Entry) :
    List Entry × List Entry × List Entry :=
  (t.1.map eraseInMinutes, t.2.1.map eraseInMinutes,
    t.2.2.map eraseInMinutes)

/-- A fixed clock for the concrete evaluations below. -/
def env0 : Env := ⟨0, 0⟩

/-- A syntactically valid input document whose rides array contains a
`null` element: `\x7b"rides": [null]\x7d`. -/
def nullRideDoc : JVal := .obj [("rides", .arr [.null])]

/-- A document with a single route named "Crimson Express" (no color
substring) and one qualifying ride on it. -/
def crimsonDoc : JVal := .obj [
  ("routes", .arr [.obj [("routeId", .str "r1"),
    ("name", .str "Crimson Express")]]),
  ("rides", .arr [.obj [("routeId", .str "r1"),
    ("stopStatus", .arr [.obj [("stopId", .str "O"),
      ("scheduledAt", .str "100000"),
      ("expectedArrivalTime", .str "200000")]])]])]

/-- The display colors of the blue bucket obtained from `crimsonDoc`. -/
def crimsonBlueColors : List String :=
  match parseTripShotCommutePlanForOrigin env0 crimsonDoc "o" "L" with
  | .ok r => r.blue.map Entry.color
  | .error _ => []

/-- One ride with a single origin stop-status record at time 100. -/
def ride100 : JVal := .obj [("stopStatus", .arr [.obj [
  ("stopId", .str "o"), ("scheduledAt", .str "100")]])]

/-- A document with two rides that produce the same raw timestamp. -/
def dupTimeDoc : JVal := .obj [("rides", .arr [ride100, ride100])]

/-- The blue bucket obtained from `dupTimeDoc`. -/
def dupBlue : List Entry :=
  match parseTripShotCommutePlanForOrigin env0 dupTimeDoc "o" "L" with
  | .ok r => r.blue
  | .error _ => []

/-- The entry both rides of `dupTimeDoc` produce. -/
def dupEntry : Entry :=
  ⟨.str "Shuttle", "blue", "12:00 am", .str "100", some 0, false, false⟩

/-- An empty input document. -/
def emptyDoc : JVal := .obj []

/-- A concrete ride used by several witnesses: an origin record at
scheduled time 100000 with live time 200000, and a destination record at
300000. -/
def witRide : JVal := .obj [("stopStatus", .arr [
  .obj [("stopId", .str "O"), ("scheduledAt", .str "100000"),
    ("expectedArrivalTime", .str "200000")],
  .obj [("stopId", .str "N"), ("scheduledArrivalTime", .str "300000")]])]

/-- A synthetic colorless route record. -/
def witInfo : RouteInfo := ⟨.null, .str "Shuttle", .str "Shuttle", ""⟩

/-- The entry `considerRide env0 witRide witInfo "o" "n"` produces. -/
def witEntry : Entry :=
  ⟨.str "Shuttle", "blue", "12:03 am", .str "200000", some 3, true, true⟩

/-- An origin record whose five time fields are all the empty string. -/
def emptyTimesNode : JVal := .obj [("stopId", .str "o"),
  ("scheduledDepartureTime", .str ""), ("scheduledArrivalTime", .str ""),
  ("scheduledAt", .str ""), ("expectedArrivalTime", .str ""),
  ("expectedDepartureTime", .str "")]

/-- A ride whose only stop-status record is `emptyTimesNode`. -/
def emptyTimesRide : JVal := .obj [("stopStatus", .arr [emptyTimesNode])]

/-- Two distinct records both matching the origin stop id "o". -/
def dupStatusA : JVal := .obj [("stopId", .str "o"), ("scheduledAt", .str "1")]

/-- Two distinct records both matching the origin stop id "o". -/
def dupStatusB : JVal := .obj [("stopId", .str "o"), ("scheduledAt", .str "2")]

/-- The output `emptyDoc` normalizes to. -/
def emptyOut : ParsedOutput := ⟨"L", [], [], []⟩


/-- The delay test succeeds exactly when both instants parse and differ by
strictly more than one minute. -/
lemma delayGtOneMin_eq_true_iff (a b : Option Int) :
    delayGtOneMin a b = true ↔
      ∃ x y, a = some x ∧ b = some y ∧ 60000 < x - y := by
  cases a <;> cases b <;> simp [delayGtOneMin]

/-- The strict instant comparison succeeds exactly when both sides parse
and the first is strictly smaller. -/
lemma jsLtMs_eq_true_iff (a b : Option Int) :
    jsLtMs a b = true ↔ ∃ x y, a = some x ∧ b = some y ∧ x < y := by
  cases a <;> cases b <;> simp [jsLtMs]

/-- Characterization of the `reaches96` flag in terms of the resolved
destination record and its time chain. -/
lemma reaches96Of_ok_iff (dn : Option JVal) (live : JVal) (b : Bool)
    (h : reaches96Of dn live = .ok b) :
    b = true ↔
      ∃ d destT, dn = some d ∧ ninetySixTimeOf d = .ok destT ∧
        truthy destT = true ∧
        ∃ lm dm, parseDate live = some lm ∧ parseDate destT = some dm ∧
          lm < dm := by
  cases dn with
  | none =>
    simp only [reaches96Of] at h
    injection h with hb
    subst hb
    simp
  | some d =>
    simp only [reaches96Of] at h
    cases ht : ninetySixTimeOf d with
    | error msg => rw [ht] at h; cases h
    | ok t =>
      rw [ht] at h
      injection h with hb
      subst hb
      rw [Bool.and_eq_true, jsLtMs_eq_true_iff]
      constructor
      · rintro ⟨htr, x, y, hx, hy, hxy⟩
        exact ⟨d, t, rfl, ht, htr, x, y, hx, hy, hxy⟩
      · rintro ⟨d1, t1, hd1, ht1, htr, x, y, hx, hy, hxy⟩
        injection hd1 with hdd
        subst hdd
        rw [ht] at ht1
        injection ht1 with htt
        subst htt
        exact ⟨htr, x, y, hx, hy, hxy⟩

/-- C3: the claim says the normalizer terminates normally and never throws
on any syntactically valid input document; but on the valid document
`\x7b"rides": [null]\x7d` the rides loop calls `isWalkingRide(null)`, whose
`ride.mode` access throws a `TypeError`, so
`parseTripShotCommutePlanForOrigin` propagates an error instead of
degrading to a skip. -/
theorem c3_normalizer_throws_on_null_ride_element :
    parseTripShotCommutePlanForOrigin env0 nullRideDoc "o" "L" =
      .error "TypeError: cannot read properties of null" := rfl

/-- C6: for every list of entries and every `now` (the civil-time snapshot
`getNYCTime()` returns), `filterTripsAfterNYCNow` retains exactly the
entries whose raw timestamp is present (truthy) and parses to an instant
at or after `now`; entries strictly before `now`, without a raw timestamp,
or with an unparseable one, are removed. -/
theorem c6_filter_retains_exactly_future_trips (now : Int)
    (trips : List Entry) (e : Entry) :
    e ∈ filterTripsAfterNYCNow now trips ↔
      e ∈ trips ∧ truthy e.rawISO = true ∧
        ∃ t, parseDate e.rawISO = some t ∧ now ≤ t := by
  unfold filterTripsAfterNYCNow
  rw [List.mem_filter]
  constructor
  · rintro ⟨hmem, hp⟩
    rw [Bool.and_eq_true] at hp
    obtain ⟨ht, hg⟩ := hp
    refine ⟨hmem, ht, ?_⟩
    unfold jsGeMs at hg
    cases hpd : parseDate e.rawISO with
    | none => rw [hpd] at hg; exact absurd hg (by simp)
    | some t =>
      rw [hpd] at hg
      exact ⟨t, rfl, of_decide_eq_true hg⟩
  · rintro ⟨hmem, ht, t, hpd, hle⟩
    refine ⟨hmem, ?_⟩
    rw [Bool.and_eq_true]
    refine ⟨ht, ?_⟩
    unfold jsGeMs
    rw [hpd]
    exact decide_eq_true hle

/-- C5, counterexample: on `crimsonDoc` (route name "Crimson Express", no
color substring) the v15 parser emits display color `"blue"` — the bucket
key unchanged — not the capitalized `"Blue"` the claim requires. -/
theorem c5_counterexample_lowercase_blue :
    crimsonBlueColors = ["blue"] ∧ "blue" ≠ "Blue" :=
  ⟨rfl, by decide⟩

/-- C4, counterexample: `dupTimeDoc` holds two rides with the same raw
timestamp; the resulting blue bucket contains the entry twice, so it is
not sorted strictly ascending by raw timestamp. -/
theorem c4_counterexample_equal_timestamps :
    dupBlue = [dupEntry, dupEntry] ∧
      ¬ strictlyAscendingByRawTimestamp dupBlue := by
  refine ⟨rfl, fun h => ?_⟩
  rw [show dupBlue = [dupEntry, dupEntry] from rfl,
    strictlyAscendingByRawTimestamp] at h
  rcases List.pairwise_cons.mp h with ⟨h1, _⟩
  exact absurd (h1 dupEntry (List.mem_singleton.mpr rfl)) (by decide)

/-- C5 (amended): for every entry the v15 parser emits, the display color
is the route's color label when one was inferred; otherwise it is the
bucket key itself, lower-case `"blue"` (the older v14 parser's expression,
`displayColorV14`, is the one that capitalizes the fallback to
`"Blue"`). -/
theorem c5_display_color_label_else_lowercase_bucket_key (env : Env)
    (ride : JVal) (info : RouteInfo) (oid nid k : String) (e : Entry)
    (h : considerRide env ride info oid nid = .ok (some (k, e))) :
    (info.colorLabel ≠ "" → e.color = info.colorLabel) ∧
    (info.colorLabel = "" →
      k = "blue" ∧ e.color = "blue" ∧
        displayColorV14 info.colorLabel k = "Blue") := by
  unfold considerRide at h
  repeat' split at h
  all_goals try (simp at h)
  · obtain ⟨hk, he⟩ := h
    subst hk
    subst he
    exact ⟨fun _ => rfl, fun he2 => absurd he2 (by assumption)⟩
  · obtain ⟨hk, he⟩ := h
    subst hk
    subst he
    have hc : info.colorLabel = "" := not_ne_iff.mp (by assumption)
    refine ⟨fun hne => absurd hc hne, fun _ => ⟨rfl, rfl, ?_⟩⟩
    rw [hc]
    rfl

/-- C5, witness: the colorless `witInfo` route yields the lower-case
display color `"blue"`, while the v14 expression would capitalize it. -/
theorem c5_display_color_witness :
    (witInfo.colorLabel ≠ "" → witEntry.color = witInfo.colorLabel) ∧
    (witInfo.colorLabel = "" →
      "blue" = "blue" ∧ witEntry.color = "blue" ∧
        displayColorV14 witInfo.colorLabel "blue" = "Blue") :=
  c5_display_color_label_else_lowercase_bucket_key env0 witRide witInfo
    "o" "n" "blue" witEntry rfl

/-- C1: for every qualifying ride (one whose `considerRide` produces an
entry), `delayed = true` holds if and only if the scheduled-time chain of
the origin record produced a truthy value and the live time exceeds the
scheduled time by strictly more than one minute (60000 ms); early or
at-most-one-minute-late rides, and rides whose times fail to parse, are
never flagged delayed. -/
theorem c1_delayed_iff_sched_exists_and_gt_one_min (env : Env) (ride : JVal)
    (info : RouteInfo) (oid nid k : String) (e : Entry)
    (h : considerRide env ride info oid nid = .ok (some (k, e))) :
    ∃ ss statuses node dn sched live,
      jsGetField ride "stopStatus" = .ok ss ∧
      jsIterate (jsOr ss (.arr [])) = .ok statuses ∧
      scanStatuses oid nid statuses none none = .ok (some node, dn) ∧
      scheduledTimeOf node = .ok sched ∧
      liveTimeOf node sched = .ok live ∧
      e.rawISO = live ∧
      (e.delayed = true ↔
        truthy sched = true ∧
        ∃ lm sm, parseDate live = some lm ∧ parseDate sched = some sm ∧
          60000 < lm - sm) := by
  unfold considerRide at h
  repeat' split at h
  all_goals try (simp at h)
  all_goals
    obtain ⟨hk, he⟩ := h
  all_goals
    subst hk
  all_goals
    subst he
  all_goals
    refine ⟨_, _, _, _, _, _, (by assumption), (by assumption),
      (by assumption), (by assumption), (by assumption), rfl, ?_⟩
  all_goals
    simp [Bool.and_eq_true, delayGtOneMin_eq_true_iff]

/-- C1, witness: `witRide`'s origin record is 100 seconds late, so its
entry is flagged delayed. -/
theorem c1_delayed_witness :
    ∃ ss statuses node dn sched live,
      jsGetField witRide "stopStatus" = .ok ss ∧
      jsIterate (jsOr ss (.arr [])) = .ok statuses ∧
      scanStatuses "o" "n" statuses none none = .ok (some node, dn) ∧
      scheduledTimeOf node = .ok sched ∧
      liveTimeOf node sched = .ok live ∧
      witEntry.rawISO = live ∧
      (witEntry.delayed = true ↔
        truthy sched = true ∧
        ∃ lm sm, parseDate live = some lm ∧ parseDate sched = some sm ∧
          60000 < lm - sm) :=
  c1_delayed_iff_sched_exists_and_gt_one_min env0 witRide witInfo
    "o" "n" "blue" witEntry rfl

/-- C2: for every qualifying ride, `direct = true` holds if and only if a
destination (96th St) record was resolved, its time chain produced a
truthy value, and the origin live time parses to an instant strictly
earlier than the destination time; in every other case (no destination
record, falsy or unparseable destination time, or live not strictly
earlier) `direct = false`. -/
theorem c2_direct_iff_dest_time_later (env : Env) (ride : JVal)
    (info : RouteInfo) (oid nid k : String) (e : Entry)
    (h : considerRide env ride info oid nid = .ok (some (k, e))) :
    ∃ ss statuses node dn sched live,
      jsGetField ride "stopStatus" = .ok ss ∧
      jsIterate (jsOr ss (.arr [])) = .ok statuses ∧
      scanStatuses oid nid statuses none none = .ok (some node, dn) ∧
      scheduledTimeOf node = .ok sched ∧
      liveTimeOf node sched = .ok live ∧
      e.rawISO = live ∧
      (e.direct = true ↔
        ∃ d destT, dn = some d ∧ ninetySixTimeOf d = .ok destT ∧
          truthy destT = true ∧
          ∃ lm dm, parseDate live = some lm ∧ parseDate destT = some dm ∧
            lm < dm) := by
  unfold considerRide at h
  repeat' split at h
  all_goals try (simp at h)
  all_goals
    obtain ⟨hk, he⟩ := h
  all_goals
    subst hk
  all_goals
    subst he
  all_goals
    refine ⟨_, _, _, _, _, _, (by assumption), (by assumption),
      (by assumption), (by assumption), (by assumption), rfl, ?_⟩
  all_goals
    exact reaches96Of_ok_iff _ _ _ (by assumption)

/-- Sorting then truncating yields a list sorted by the comparator. -/
lemma sortAndTake3_sorted (xs : List Entry) :
    List.Sorted entryLe (sortAndTake3 xs) :=
  List.Pairwise.sublist (List.take_sublist 3 _)
    (List.sorted_insertionSort entryLe xs)

/-- The truncation caps every bucket at three entries. -/
lemma sortAndTake3_length_le (xs : List Entry) :
    (sortAndTake3 xs).length ≤ 3 := by
  unfold sortAndTake3
  rw [List.length_take]
  exact min_le_left _ _

/-- C4 (amended): every bucket of every successful normalization is sorted
in non-decreasing (not strict: duplicate timestamps survive, see the
counterexample) order of raw timestamp and holds at most 3 entries. -/
theorem c4_buckets_sorted_nondecreasing_and_capped (env : Env) (json : JVal)
    (o l : String) (out : ParsedOutput)
    (h : parseTripShotCommutePlanForOrigin env json o l = .ok out) :
    List.Sorted entryLe out.green ∧ List.Sorted entryLe out.red ∧
    List.Sorted entryLe out.blue ∧
    out.green.length ≤ 3 ∧ out.red.length ≤ 3 ∧ out.blue.length ≤ 3 := by
  unfold parseTripShotCommutePlanForOrigin at h
  repeat' split at h
  all_goals try (simp at h)
  all_goals repeat' split at h
  all_goals try (simp at h)
  subst h
  exact ⟨sortAndTake3_sorted _, sortAndTake3_sorted _, sortAndTake3_sorted _,
    sortAndTake3_length_le _, sortAndTake3_length_le _,
    sortAndTake3_length_le _⟩

/-- C4, witness: the empty document's output has three empty (hence
sorted, capped) buckets. -/
theorem c4_sorted_witness :
    List.Sorted entryLe emptyOut.green ∧ List.Sorted entryLe emptyOut.red ∧
    List.Sorted entryLe emptyOut.blue ∧
    emptyOut.green.length ≤ 3 ∧ emptyOut.red.length ≤ 3 ∧
    emptyOut.blue.length ≤ 3 :=
  c4_buckets_sorted_nondecreasing_and_capped env0 emptyDoc "o" "L"
    emptyOut rfl

/-- Peeling one wrapper off `lastMatchingStatus`: later wrappers take
priority over the head. -/
lemma lastMatchingStatus_cons (w : JVal) (ws : List JVal) (id : String) :
    lastMatchingStatus (w :: ws) id =
      (lastMatchingStatus ws id).or (statusMatch id w) := by
  simp only [lastMatchingStatus, List.reverse_cons, List.findSome?_append]
  cases hsw : statusMatch id w <;> simp [List.findSome?_cons, hsw]

/-- The scanning loop's accumulators end at the last matching wrapper, or
keep their initial value when no wrapper matches. -/
lemma scanStatuses_last_match (oid nid : String) :
    ∀ (l : List JVal) (o n o' n' : Option JVal),
      scanStatuses oid nid l o n = .ok (o', n') →
      o' = (match lastMatchingStatus l oid with
            | some x => some x
            | none => o) ∧
      n' = (match lastMatchingStatus l nid with
            | some x => some x
            | none => n)
  | [], o, n, o', n', h => by
    simp only [scanStatuses] at h
    injection h with hp
    obtain ⟨ho, hn⟩ := Prod.mk.injEq _ _ _ _ ▸ hp
    subst ho
    subst hn
    simp [lastMatchingStatus]
  | w :: ws, o, n, o', n', h => by
    simp only [scanStatuses] at h
    rw [lastMatchingStatus_cons, lastMatchingStatus_cons]
    by_cases htw : truthy w = false
    · rw [if_pos htw] at h
      have ih := scanStatuses_last_match oid nid ws o n o' n' h
      rw [show statusMatch oid w = none from by simp [statusMatch, htw],
        show statusMatch nid w = none from by simp [statusMatch, htw]]
      simpa using ih
    · rw [if_neg htw] at h
      cases hs : sidOf (unwrapStatus w) with
      | error msg => rw [hs] at h; cases h
      | ok sid =>
        rw [hs] at h
        have ih := scanStatuses_last_match oid nid ws _ _ o' n' h
        have htw2 : truthy w = true := by
          cases hcase : truthy w
          · exact absurd hcase htw
          · rfl
        constructor
        · rw [ih.1]
          cases hlast : lastMatchingStatus ws oid with
          | some x => simp
          | none =>
            simp only [Option.or]
            rw [show statusMatch oid w =
                (if sid == oid then some (unwrapStatus w) else none) from by
              simp [statusMatch, htw2, hs]]
            by_cases hsid : sid == oid
            · rw [if_pos hsid, if_pos hsid]
            · rw [if_neg hsid, if_neg hsid]
        · rw [ih.2]
          cases hlast : lastMatchingStatus ws nid with
          | some x => simp
          | none =>
            simp only [Option.or]
            rw [show statusMatch nid w =
                (if sid == nid then some (unwrapStatus w) else none) from by
              simp [statusMatch, htw2, hs]]
            by_cases hsid : sid == nid
            · rw [if_pos hsid, if_pos hsid]
            · rw [if_neg hsid, if_neg hsid]

/-- C9: when a ride's stop-status sequence holds several records matching
the origin (or destination) identifier, the record the scan resolves is
the last matching one in sequence order — earlier matches are
overwritten. -/
theorem c9_last_matching_record_wins (oid nid : String) (l : List JVal)
    (o96 : Option JVal × Option JVal)
    (h : scanStatuses oid nid l none none = .ok o96) :
    o96.1 = lastMatchingStatus l oid ∧ o96.2 = lastMatchingStatus l nid := by
  obtain ⟨o', n'⟩ := o96
  obtain ⟨h1, h2⟩ := scanStatuses_last_match oid nid l none none o' n' h
  constructor
  · rw [h1]; cases lastMatchingStatus l oid <;> rfl
  · rw [h2]; cases lastMatchingStatus l nid <;> rfl

/-- C9, witness: with two records both at stop "o", the scan resolves the
second one. -/
theorem c9_last_match_witness :
    some dupStatusB = lastMatchingStatus [dupStatusA, dupStatusB] "o" ∧
    (none : Option JVal) = lastMatchingStatus [dupStatusA, dupStatusB] "n" :=
  c9_last_matching_record_wins "o" "n" [dupStatusA, dupStatusB]
    (some dupStatusB, none) rfl

/-- C10: the `||` fallback chains treat an empty-string field as absent
(the chain moves on to the next candidate) in all three time chains, and
a matched origin record whose five time fields are all empty strings makes
the live-time check fail, so the ride is discarded (`considerRide`
produces no entry). -/
theorem c10_empty_string_treated_absent (env : Env) (ride : JVal)
    (info : RouteInfo) (oid nid rName rShort : String) (ss : JVal)
    (statuses : List JVal) (node : JVal) (dn : Option JVal)
    (hr : truthy ride = true)
    (hn : jsToLowerCase (jsOr info.name (.str "")) = .ok rName)
    (hsh : jsToLowerCase (jsOr info.shortName (.str "")) = .ok rShort)
    (hm1 : jsIncludes rName "manhattanville" = false)
    (hm2 : jsIncludes rShort "manhattanville" = false)
    (hss : jsGetField ride "stopStatus" = .ok ss)
    (hit : jsIterate (jsOr ss (.arr [])) = .ok statuses)
    (hscan : scanStatuses oid nid statuses none none = .ok (some node, dn))
    (h1 : jsGetField node "scheduledDepartureTime" = .ok (.str ""))
    (h2 : jsGetField node "scheduledArrivalTime" = .ok (.str ""))
    (h3 : jsGetField node "scheduledAt" = .ok (.str ""))
    (h4 : jsGetField node "expectedArrivalTime" = .ok (.str ""))
    (h5 : jsGetField node "expectedDepartureTime" = .ok (.str "")) :
    scheduledTimeOf node = .ok (.str "") ∧
    liveTimeOf node (.str "") = .ok (.str "") ∧
    considerRide env ride info oid nid = .ok none ∧
    (∀ nodeB b c,
      jsGetField nodeB "scheduledDepartureTime" = .ok (.str "") →
      jsGetField nodeB "scheduledArrivalTime" = .ok b →
      jsGetField nodeB "scheduledAt" = .ok c →
      scheduledTimeOf nodeB = .ok (jsOr b c)) ∧
    (∀ nodeB b sched,
      jsGetField nodeB "expectedArrivalTime" = .ok (.str "") →
      jsGetField nodeB "expectedDepartureTime" = .ok b →
      liveTimeOf nodeB sched = .ok (jsOr b sched)) ∧
    (∀ nodeB b c,
      jsGetField nodeB "expectedArrivalTime" = .ok (.str "") →
      jsGetField nodeB "scheduledArrivalTime" = .ok b →
      jsGetField nodeB "scheduledAt" = .ok c →
      ninetySixTimeOf nodeB = .ok (jsOr b c)) := by
  have hsched : scheduledTimeOf node = .ok (.str "") := by
    simp only [scheduledTimeOf, h1, h2, h3]
    rfl
  have hlive : liveTimeOf node (.str "") = .ok (.str "") := by
    simp only [liveTimeOf, h4, h5]
    rfl
  refine ⟨hsched, hlive, ?_, ?_, ?_, ?_⟩
  · unfold considerRide
    rw [hr]
    simp only [Bool.true_eq_false, if_false, hn, hsh, hm1, hm2,
      Bool.or_self, Bool.false_eq_true, hss, hit, hscan, hsched, hlive]
    rfl
  · intro nodeB b c hb1 hb2 hb3
    simp only [scheduledTimeOf, hb1, hb2, hb3]
    rfl
  · intro nodeB b sched hb1 hb2
    simp only [liveTimeOf, hb1, hb2]
    rfl
  · intro nodeB b c hb1 hb2 hb3
    simp only [ninetySixTimeOf, hb1, hb2, hb3]
    rfl

/-- C10, witness: the all-empty-times origin record of `emptyTimesRide`
is matched by the scan, every chain yields the empty string, and the ride
is discarded. -/
theorem c10_empty_string_witness :
    scheduledTimeOf emptyTimesNode = .ok (.str "") ∧
    liveTimeOf emptyTimesNode (.str "") = .ok (.str "") ∧
    considerRide env0 emptyTimesRide witInfo "o" "n" = .ok none ∧
    (∀ nodeB b c,
      jsGetField nodeB "scheduledDepartureTime" = .ok (.str "") →
      jsGetField nodeB "scheduledArrivalTime" = .ok b →
      jsGetField nodeB "scheduledAt" = .ok c →
      scheduledTimeOf nodeB = .ok (jsOr b c)) ∧
    (∀ nodeB b sched,
      jsGetField nodeB "expectedArrivalTime" = .ok (.str "") →
      jsGetField nodeB "expectedDepartureTime" = .ok b →
      liveTimeOf nodeB sched = .ok (jsOr b sched)) ∧
    (∀ nodeB b c,
      jsGetField nodeB "expectedArrivalTime" = .ok (.str "") →
      jsGetField nodeB "scheduledArrivalTime" = .ok b →
      jsGetField nodeB "scheduledAt" = .ok c →
      ninetySixTimeOf nodeB = .ok (jsOr b c)) :=
  c10_empty_string_treated_absent env0 emptyTimesRide witInfo "o" "n"
    "shuttle" "shuttle" (.arr [emptyTimesNode]) [emptyTimesNode]
    emptyTimesNode none rfl rfl rfl rfl rfl rfl rfl rfl rfl rfl rfl rfl rfl

/-- Unfolding `bucketContrib` over the head ride. -/
lemma bucketContrib_cons (env : Env) (dir : List (String × RouteInfo))
    (oid nid k : String) (ride : JVal) (rest : List JVal) :
    bucketContrib env dir oid nid k (ride :: rest) =
      (match contribOf env dir oid nid ride with
       | some (kk, e) =>
         if kk == k then e :: bucketContrib env dir oid nid k rest
         else bucketContrib env dir oid nid k rest
       | none => bucketContrib env dir oid nid k rest) := by
  simp only [bucketContrib, List.filterMap_cons]
  cases contribOf env dir oid nid ride with
  | none => rfl
  | some kv =>
    obtain ⟨kk, e⟩ := kv
    by_cases hk : kk == k
    · simp [hk]
    · simp [hk]

/-- `bucketContrib` over a ride that contributes nothing. -/
lemma bucketContrib_cons_none (env : Env) (dir : List (String × RouteInfo))
    (oid nid k : String) (ride : JVal) (rest : List JVal)
    (h : contribOf env dir oid nid ride = none) :
    bucketContrib env dir oid nid k (ride :: rest) =
      bucketContrib env dir oid nid k rest := by
  rw [bucketContrib_cons, h]

/-- `bucketContrib` over a ride that contributes a keyed entry. -/
lemma bucketContrib_cons_some (env : Env) (dir : List (String × RouteInfo))
    (oid nid k : String) (ride : JVal) (rest : List JVal) (kk : String)
    (e : Entry) (h : contribOf env dir oid nid ride = some (kk, e)) :
    bucketContrib env dir oid nid k (ride :: rest) =
      (if kk == k then e :: bucketContrib env dir oid nid k rest
       else bucketContrib env dir oid nid k rest) := by
  rw [bucketContrib_cons, h]

/-- The rides loop appends, to each bucket, exactly the entries the rides
contribute in order: every successful run's buckets are the initial
buckets extended with `bucketContrib`, so each ride adds at most one
entry overall. -/
lemma processRides_ok (env : Env) (dir : List (String × RouteInfo))
    (oid nid : String) :
    ∀ (rides : List JVal) (g r b g' r' b' : List Entry),
      processRides env dir oid nid rides (g, r, b) = .ok (g', r', b') →
      g' = g ++ bucketContrib env dir oid nid "green" rides ∧
      r' = r ++ bucketContrib env dir oid nid "red" rides ∧
      b' = b ++ bucketContrib env dir oid nid "blue" rides
  | [], g, r, b, g', r', b', h => by
    simp only [processRides] at h
    injection h with hp
    injection hp with hg hrb
    injection hrb with hr2 hb
    subst hg
    subst hr2
    subst hb
    simp [bucketContrib]
  | ride :: rest, g, r, b, g', r', b', h => by
    simp only [processRides] at h
    split at h
    · cases h
    · rename_i heq
      have hco : contribOf env dir oid nid ride = none := by
        unfold contribOf
        rw [heq]
        rfl
      have ih := processRides_ok env dir oid nid rest g r b g' r' b' h
      rw [bucketContrib_cons_none env dir oid nid "green" ride rest hco,
        bucketContrib_cons_none env dir oid nid "red" ride rest hco,
        bucketContrib_cons_none env dir oid nid "blue" ride rest hco]
      exact ih
    · rename_i k entry heq
      have hco : contribOf env dir oid nid ride = some (k, entry) := by
        unfold contribOf
        rw [heq]
        rfl
      rw [bucketContrib_cons_some env dir oid nid "green" ride rest k entry
          hco,
        bucketContrib_cons_some env dir oid nid "red" ride rest k entry hco,
        bucketContrib_cons_some env dir oid nid "blue" ride rest k entry hco]
      by_cases hk : k == "green"
      · rw [if_pos hk] at h
        have hkeq : k = "green" := beq_iff_eq.mp hk
        subst hkeq
        obtain ⟨ihg, ihr, ihb⟩ := processRides_ok env dir oid nid rest
          (g ++ [entry]) r b g' r' b' h
        rw [ihg, ihr, ihb]
        exact ⟨by simp, by simp, by simp⟩
      · rw [if_neg hk] at h
        by_cases hk2 : k == "red"
        · rw [if_pos hk2] at h
          have hkeq : k = "red" := beq_iff_eq.mp hk2
          subst hkeq
          obtain ⟨ihg, ihr, ihb⟩ := processRides_ok env dir oid nid rest
            g (r ++ [entry]) b g' r' b' h
          rw [ihg, ihr, ihb]
          exact ⟨by simp, by simp, by simp⟩
        · rw [if_neg hk2] at h
          by_cases hk3 : k == "blue"
          · rw [if_pos hk3] at h
            have hkeq : k = "blue" := beq_iff_eq.mp hk3
            subst hkeq
            obtain ⟨ihg, ihr, ihb⟩ := processRides_ok env dir oid nid rest
              g r (b ++ [entry]) g' r' b' h
            rw [ihg, ihr, ihb]
            exact ⟨by simp, by simp, by simp⟩
          · rw [if_neg hk3] at h
            cases h

/-- A scan that resolves an origin node either started with it in its
accumulator or saw a truthy wrapper whose unwrapped record carries the
origin identifier. -/
lemma scanStatuses_some_origin_mem (oid nid : String) :
    ∀ (l : List JVal) (o n : Option JVal) (node : JVal) (n' : Option JVal),
      scanStatuses oid nid l o n = .ok (some node, n') →
      o = some node ∨
        ∃ w ∈ l, truthy w = true ∧ sidOf (unwrapStatus w) = .ok oid
  | [], o, n, node, n', h => by
    simp only [scanStatuses] at h
    injection h with hp
    injection hp with ho hn
    exact Or.inl ho
  | w :: ws, o, n, node, n', h => by
    simp only [scanStatuses] at h
    by_cases htw : truthy w = false
    · rw [if_pos htw] at h
      rcases scanStatuses_some_origin_mem oid nid ws o n node n' h with
        ho | ⟨w2, hmem, hw2⟩
      · exact Or.inl ho
      · exact Or.inr ⟨w2, List.mem_cons_of_mem w hmem, hw2⟩
    · rw [if_neg htw] at h
      have htw2 : truthy w = true := by
        cases hcase : truthy w
        · exact absurd hcase htw
        · rfl
      cases hs : sidOf (unwrapStatus w) with
      | error msg => rw [hs] at h; cases h
      | ok sid =>
        rw [hs] at h
        rcases scanStatuses_some_origin_mem oid nid ws _ _ node n' h with
          ho | ⟨w2, hmem, hw2⟩
        · by_cases hsid : sid == oid
          · have : sid = oid := beq_iff_eq.mp hsid
            subst this
            exact Or.inr ⟨w, List.mem_cons_self w ws, htw2, hs⟩
          · rw [if_neg hsid] at ho
            exact Or.inl ho
        · exact Or.inr ⟨w2, List.mem_cons_of_mem w hmem, hw2⟩

/-- C7: (1) every successful normalization's buckets are exactly the
sorted, capped per-ride contributions (`contribOf` yields at most one
keyed entry per ride, so a ride contributes at most one entry across the
three buckets); (2) `considerRide` produces an entry only when the ride's
stop-status sequence contains a truthy record whose unwrapped stop
identifier equals the requested (lower-cased) origin identifier. -/
theorem c7_at_most_one_entry_and_origin_match_required :
    (∀ (env : Env) (json : JVal) (o l : String) (out : ParsedOutput),
      parseTripShotCommutePlanForOrigin env json o l = .ok out →
      ∃ routesV routes dir ridesV rides,
        jsGetField json "routes" = .ok routesV ∧
        jsIterate (jsOr routesV (.arr [])) = .ok routes ∧
        buildRouteInfoById routes [] = .ok dir ∧
        jsGetField json "rides" = .ok ridesV ∧
        jsIterate (jsOr ridesV (.arr [])) = .ok rides ∧
        out.green = sortAndTake3 (bucketContrib env dir (lowerStr o)
          (lowerStr NINETY_SIX_STOP_ID) "green" rides) ∧
        out.red = sortAndTake3 (bucketContrib env dir (lowerStr o)
          (lowerStr NINETY_SIX_STOP_ID) "red" rides) ∧
        out.blue = sortAndTake3 (bucketContrib env dir (lowerStr o)
          (lowerStr NINETY_SIX_STOP_ID) "blue" rides)) ∧
    (∀ (env : Env) (ride : JVal) (info : RouteInfo) (oid nid k : String)
      (e : Entry),
      considerRide env ride info oid nid = .ok (some (k, e)) →
      ∃ ss statuses,
        jsGetField ride "stopStatus" = .ok ss ∧
        jsIterate (jsOr ss (.arr [])) = .ok statuses ∧
        ∃ w ∈ statuses, truthy w = true ∧
          sidOf (unwrapStatus w) = .ok oid) := by
  constructor
  · intro env json o l out h
    unfold parseTripShotCommutePlanForOrigin at h
    repeat' split at h
    all_goals try (simp at h)
    all_goals repeat' split at h
    all_goals try (simp at h)
    subst h
    rename_i g r b heqp
    obtain ⟨hg, hr, hb⟩ :=
      processRides_ok env _ (lowerStr o) (lowerStr NINETY_SIX_STOP_ID)
        _ [] [] [] g r b heqp
    refine ⟨_, _, _, _, _, (by assumption), (by assumption),
      (by assumption), (by assumption), (by assumption), ?_, ?_, ?_⟩
    · rw [hg]; simp
    · rw [hr]; simp
    · rw [hb]; simp
  · intro env ride info oid nid k e h
    unfold considerRide at h
    repeat' split at h
    all_goals try (simp at h)
    all_goals
      rcases scanStatuses_some_origin_mem oid nid _ none none _ _
        (by assumption) with hcontra | hex
    all_goals try (cases hcontra)
    all_goals
      exact ⟨_, _, (by assumption), (by assumption), hex⟩

/-- C7, witness: the empty document yields empty buckets (part 1 at
`emptyDoc`); `witRide`'s entry required its origin record (part 2). -/
theorem c7_witness :
    (∃ routesV routes dir ridesV rides,
      jsGetField emptyDoc "routes" = .ok routesV ∧
      jsIterate (jsOr routesV (.arr [])) = .ok routes ∧
      buildRouteInfoById routes [] = .ok dir ∧
      jsGetField emptyDoc "rides" = .ok ridesV ∧
      jsIterate (jsOr ridesV (.arr [])) = .ok rides ∧
      emptyOut.green = sortAndTake3 (bucketContrib env0 dir (lowerStr "o")
        (lowerStr NINETY_SIX_STOP_ID) "green" rides) ∧
      emptyOut.red = sortAndTake3 (bucketContrib env0 dir (lowerStr "o")
        (lowerStr NINETY_SIX_STOP_ID) "red" rides) ∧
      emptyOut.blue = sortAndTake3 (bucketContrib env0 dir (lowerStr "o")
        (lowerStr NINETY_SIX_STOP_ID) "blue" rides)) ∧
    (∃ ss statuses,
      jsGetField witRide "stopStatus" = .ok ss ∧
      jsIterate (jsOr ss (.arr [])) = .ok statuses ∧
      ∃ w ∈ statuses, truthy w = true ∧
        sidOf (unwrapStatus w) = .ok "o") :=
  ⟨c7_at_most_one_entry_and_origin_match_required.1 env0 emptyDoc "o" "L"
      emptyOut rfl,
    c7_at_most_one_entry_and_origin_match_required.2 env0 witRide witInfo
      "o" "n" "blue" witEntry rfl⟩

/-- C2, witness: `witRide` has a destination record at 300000 ms, later
than its live time 200000 ms, so its entry is direct. -/
theorem c2_direct_witness :
    ∃ ss statuses node dn sched live,
      jsGetField witRide "stopStatus" = .ok ss ∧
      jsIterate (jsOr ss (.arr [])) = .ok statuses ∧
      scanStatuses "o" "n" statuses none none = .ok (some node, dn) ∧
      scheduledTimeOf node = .ok sched ∧
      liveTimeOf node sched = .ok live ∧
      witEntry.rawISO = live ∧
      (witEntry.direct = true ↔
        ∃ d destT, dn = some d ∧ ninetySixTimeOf d = .ok destT ∧
          truthy destT = true ∧
          ∃ lm dm, parseDate live = some lm ∧ parseDate destT = some dm ∧
            lm < dm) :=
  c2_direct_iff_dest_time_later env0 witRide witInfo "o" "n" "blue"
    witEntry rfl


/-- Erasing `inMinutes` keeps the sort key (the raw timestamp). -/
lemma entryLe_eraseInMinutes (a b : Entry) :
    entryLe (eraseInMinutes a) (eraseInMinutes b) ↔ entryLe a b := Iff.rfl

/-- `map eraseInMinutes` commutes with the ordered insertion, because the
comparator only reads `rawISO`. -/
lemma orderedInsert_map_erase (a : Entry) :
    ∀ l : List Entry,
      (l.orderedInsert entryLe a).map eraseInMinutes =
        (l.map eraseInMinutes).orderedInsert entryLe (eraseInMinutes a)
  | [] => rfl
  | b :: l => by
    simp only [List.orderedInsert, List.map_cons]
    by_cases h : entryLe a b
    · rw [if_pos h, if_pos ((entryLe_eraseInMinutes a b).mpr h)]
      simp
    · rw [if_neg h, if_neg (fun hc => h ((entryLe_eraseInMinutes a b).mp hc))]
      simp only [List.map_cons, orderedInsert_map_erase a l]

/-- `map eraseInMinutes` commutes with the insertion sort. -/
lemma insertionSort_map_erase :
    ∀ l : List Entry,
      (l.insertionSort entryLe).map eraseInMinutes =
        (l.map eraseInMinutes).insertionSort entryLe
  | [] => rfl
  | a :: l => by
    simp only [List.insertionSort, List.map_cons]
    rw [orderedInsert_map_erase, insertionSort_map_erase l]

/-- `map eraseInMinutes` commutes with sorting and truncation. -/
lemma sortAndTake3_map_erase (l : List Entry) :
    (sortAndTake3 l).map eraseInMinutes =
      sortAndTake3 (l.map eraseInMinutes) := by
  unfold sortAndTake3
  rw [List.map_take, insertionSort_map_erase]

/-- `considerRide` reads the clock only to fill `inMinutes` (and the fixed
timezone offset for the display time), so two runs at different `now`
agree after erasing `inMinutes`. -/
lemma considerRide_eraseMin (n1 n2 tz : Int) (ride : JVal)
    (info : RouteInfo) (oid nid : String) :
    (considerRide ⟨n1, tz⟩ ride info oid nid).map
        (Option.map (Prod.map id eraseInMinutes)) =
      (considerRide ⟨n2, tz⟩ ride info oid nid).map
        (Option.map (Prod.map id eraseInMinutes)) := by
  unfold considerRide
  repeat' split
  all_goals rfl

/-- The ride loop body inherits the clock independence. -/
lemma rideEntryOf_eraseMin (n1 n2 tz : Int)
    (dir : List (String × RouteInfo)) (oid nid : String) (ride : JVal) :
    (rideEntryOf ⟨n1, tz⟩ dir oid nid ride).map
        (Option.map (Prod.map id eraseInMinutes)) =
      (rideEntryOf ⟨n2, tz⟩ dir oid nid ride).map
        (Option.map (Prod.map id eraseInMinutes)) := by
  unfold rideEntryOf
  repeat' split
  all_goals first
    | rfl
    | exact considerRide_eraseMin n1 n2 tz ride _ oid nid

/-- The whole rides loop is clock-independent modulo `inMinutes`. -/
lemma processRides_eraseMin (n1 n2 tz : Int)
    (dir : List (String × RouteInfo)) (oid nid : String) :
    ∀ (rides : List JVal) (t1 t2 : List Entry × List Entry × List Entry),
      eraseTriple t1 = eraseTriple t2 →
      (processRides ⟨n1, tz⟩ dir oid nid rides t1).map eraseTriple =
        (processRides ⟨n2, tz⟩ dir oid nid rides t2).map eraseTriple
  | [], t1, t2, he => by
    simp only [processRides, Except.map]
    rw [he]
  | ride :: rest, t1, t2, he => by
    obtain ⟨g1, r1, b1⟩ := t1
    obtain ⟨g2, r2, b2⟩ := t2
    simp only [processRides]
    have hre := rideEntryOf_eraseMin n1 n2 tz dir oid nid ride
    cases h1 : rideEntryOf ⟨n1, tz⟩ dir oid nid ride with
    | error msg =>
      cases h2 : rideEntryOf ⟨n2, tz⟩ dir oid nid ride with
      | error msg2 =>
        rw [h1, h2] at hre
        simp only [Except.map] at hre
        injection hre with hm
        subst hm
        rfl
      | ok v2 =>
        rw [h1, h2] at hre
        simp [Except.map] at hre
    | ok v1 =>
      cases h2 : rideEntryOf ⟨n2, tz⟩ dir oid nid ride with
      | error msg2 =>
        rw [h1, h2] at hre
        simp [Except.map] at hre
      | ok v2 =>
        rw [h1, h2] at hre
        simp only [Except.map] at hre
        injection hre with hv
        cases v1 with
        | none =>
          cases v2 with
          | none =>
            exact processRides_eraseMin n1 n2 tz dir oid nid rest
              (g1, r1, b1) (g2, r2, b2) he
          | some kv2 => simp at hv
        | some kv1 =>
          cases v2 with
          | none => simp at hv
          | some kv2 =>
            obtain ⟨k1, e1⟩ := kv1
            obtain ⟨k2, e2⟩ := kv2
            simp only [Option.map, Prod.map, id] at hv
            injection hv with hv2
            injection hv2 with hk he2
            subst hk
            have heg : eraseTriple (g1 ++ [e1], r1, b1) =
                eraseTriple (g2 ++ [e2], r2, b2) := by
              unfold eraseTriple at he ⊢
              injection he with hea heb
              injection heb with heb hec
              simp only [List.map_append, List.map_cons, List.map_nil]
              rw [hea, heb, hec, he2]
            have her : eraseTriple (g1, r1 ++ [e1], b1) =
                eraseTriple (g2, r2 ++ [e2], b2) := by
              unfold eraseTriple at he ⊢
              injection he with hea heb
              injection heb with heb hec
              simp only [List.map_append, List.map_cons, List.map_nil]
              rw [hea, heb, hec, he2]
            have heb2 : eraseTriple (g1, r1, b1 ++ [e1]) =
                eraseTriple (g2, r2, b2 ++ [e2]) := by
              unfold eraseTriple at he ⊢
              injection he with hea heb
              injection heb with heb hec
              simp only [List.map_append, List.map_cons, List.map_nil]
              rw [hea, heb, hec, he2]
            simp only []
            by_cases hk1 : k1 == "green"
            · rw [if_pos hk1, if_pos hk1]
              exact processRides_eraseMin n1 n2 tz dir oid nid rest _ _ heg
            · rw [if_neg hk1, if_neg hk1]
              by_cases hk2 : k1 == "red"
              · rw [if_pos hk2, if_pos hk2]
                exact processRides_eraseMin n1 n2 tz dir oid nid rest _ _ her
              · rw [if_neg hk2, if_neg hk2]
                by_cases hk3 : k1 == "blue"
                · rw [if_pos hk3, if_pos hk3]
                  exact processRides_eraseMin n1 n2 tz dir oid nid rest _ _
                    heb2
                · rw [if_neg hk3, if_neg hk3]

/-- The final stage (sort, cap, wrap) is clock-independent modulo
`inMinutes`. -/
lemma parseStage_eraseMin (n1 n2 tz : Int)
    (dir : List (String × RouteInfo)) (oid nid lab : String)
    (rides : List JVal) :
    (match processRides ⟨n1, tz⟩ dir oid nid rides ([], [], []) with
     | .error e => (.error e : Except String ParsedOutput)
     | .ok (g, r, b) =>
       .ok { stopName := lab
             green := sortAndTake3 g
             red := sortAndTake3 r
             blue := sortAndTake3 b }).map eraseOutMinutes =
      (match processRides ⟨n2, tz⟩ dir oid nid rides ([], [], []) with
       | .error e => (.error e : Except String ParsedOutput)
       | .ok (g, r, b) =>
         .ok { stopName := lab
               green := sortAndTake3 g
               red := sortAndTake3 r
               blue := sortAndTake3 b }).map eraseOutMinutes := by
  have hp := processRides_eraseMin n1 n2 tz dir oid nid rides
    ([], [], []) ([], [], []) rfl
  cases hq1 : processRides ⟨n1, tz⟩ dir oid nid rides ([], [], []) with
  | error msg =>
    cases hq2 : processRides ⟨n2, tz⟩ dir oid nid rides ([], [], []) with
    | error msg2 =>
      rw [hq1, hq2] at hp
      simp only [Except.map] at hp
      injection hp with hm
      subst hm
      rfl
    | ok t2 =>
      rw [hq1, hq2] at hp
      simp [Except.map] at hp
  | ok t1 =>
    obtain ⟨g1, r1, b1⟩ := t1
    cases hq2 : processRides ⟨n2, tz⟩ dir oid nid rides ([], [], []) with
    | error msg2 =>
      rw [hq1, hq2] at hp
      simp [Except.map] at hp
    | ok t2 =>
      obtain ⟨g2, r2, b2⟩ := t2
      rw [hq1, hq2] at hp
      simp only [Except.map] at hp
      injection hp with ht
      unfold eraseTriple at ht
      injection ht with h1 ht2
      injection ht2 with h2 h3
      simp only [Except.map, eraseOutMinutes]
      rw [sortAndTake3_map_erase, sortAndTake3_map_erase,
        sortAndTake3_map_erase, h1, h2, h3,
        ← sortAndTake3_map_erase, ← sortAndTake3_map_erase,
        ← sortAndTake3_map_erase]

/-- C8: normalization is deterministic (it is a pure function of the
document, origin, label and clock), and apart from the explicitly
time-relative `inMinutes` field the result does not depend on the clock
value at all: two runs at different `Date.now()` values (same timezone
offset) agree after erasing `inMinutes`. -/
theorem c8_deterministic_and_clock_independent :
    (∀ (env : Env) (json : JVal) (o l : String),
      parseTripShotCommutePlanForOrigin env json o l =
        parseTripShotCommutePlanForOrigin env json o l) ∧
    (∀ (now1 now2 tz : Int) (json : JVal) (o l : String),
      (parseTripShotCommutePlanForOrigin ⟨now1, tz⟩ json o l).map
          eraseOutMinutes =
        (parseTripShotCommutePlanForOrigin ⟨now2, tz⟩ json o l).map
          eraseOutMinutes) := by
  refine ⟨fun _ _ _ _ => rfl, ?_⟩
  intro n1 n2 tz json o l
  unfold parseTripShotCommutePlanForOrigin
  split <;> try rfl
  split <;> try rfl
  split <;> try rfl
  split <;> try rfl
  split <;> try rfl
  exact parseStage_eraseMin n1 n2 tz _ _ _ l _

end TransitBoard
